import Mathlib

/-!
Shallow embedding of src/server/uptime-kuma-server.js.

The file models, from the source:
  - address normalization and getClientIP (trust-proxy aware resolver);
  - the monitor directory query getMonitorJSONList and sendMonitorList;
  - the singleton getInstance and the constructor (SSL resolution,
    index.html load);
  - the static errorLog journal, as an effect trace.
JavaScript strings are Lean String, absent values (undefined) are Option,
thrown exceptions and process.exit are an Except error type.
-/

namespace UptimeKuma

/-- Semantics of the JavaScript regex replace of the pattern "^.*:" by the
empty string, applied to a character list: the greedy match removes every
character up to and including the LAST colon; a colon-free list is unchanged. -/
def afterLastColon : List Char → List Char
  | [] => []
  | c :: rest =>
    if ':' ∈ rest then afterLastColon rest
    else if c = ':' then rest
    else c :: rest

/-- Line 134 of the source: socket.client.conn.remoteAddress.replace of
the regex matching everything through the last colon by the empty string. -/
def normalizeAddr (s : String) : String :=
  String.mk (afterLastColon s.data)

/-- The two proxy headers the source reads from
socket.client.conn.request.headers; a value of none is a header that the
request does not carry (JavaScript undefined). -/
structure Headers where
  xForwardedFor : Option String
  xRealIp : Option String
deriving DecidableEq

/-- JavaScript a OR b over possibly-absent strings: an absent or empty
(falsy) left operand yields the right operand. -/
def jsOrStr (a b : Option String) : Option String :=
  match a with
  | some s => if s = "" then b else some s
  | none => b

/-- Lines 133-143 of the source, getClientIP: normalize the raw remote
address; when trustProxy holds, return headers x-forwarded-for OR
x-real-ip OR the normalized address, with JavaScript falsy-OR semantics;
otherwise return the normalized address. -/
def getClientIP (trustProxy : Bool) (headers : Headers) (remoteAddress : String) : String :=
  let clientIP := normalizeAddr remoteAddress
  if trustProxy then
    (jsOrStr headers.xForwardedFor (jsOrStr headers.xRealIp none)).getD clientIP
  else
    clientIP

/-- Written from the WORDS of claim C4, for refinement comparison only:
the first header value that is PRESENT, in the order forwarded-for then
real-ip, regardless of whether the value is empty. -/
def specFirstPresentHeader (h : Headers) : Option String :=
  match h.xForwardedFor with
  | some v => some v
  | none => h.xRealIp

/-- A colon-free suffix after a colon is exactly what afterLastColon keeps. -/
theorem afterLastColon_append (a b : List Char) (hb : ':' ∉ b) :
    afterLastColon (a ++ ':' :: b) = b := by
  induction a with
  | nil =>
    simp [afterLastColon, hb]
  | cons c as ih =>
    have hmem : ':' ∈ as ++ ':' :: b := by
      simp
    simp [afterLastColon, hmem, ih]

/-- A colon-free list is unchanged by afterLastColon. -/
theorem afterLastColon_no_colon (l : List Char) (h : ':' ∉ l) :
    afterLastColon l = l := by
  cases l with
  | nil => rfl
  | cons c rest =>
    have h₁ : ':' ∉ rest := fun hm => h (List.mem_cons_of_mem _ hm)
    have h₂ : c ≠ ':' := fun hc => h (hc ▸ List.mem_cons_self _ _)
    simp [afterLastColon, h₁, h₂]

/-- C3: when trustProxy is false, getClientIP returns the normalized raw
address, and two runs that differ only in the header values produce the
identical output. -/
theorem claim_C3_trustProxy_false_ignores_headers
    (raw : String) (h₁ h₂ : Headers) :
    getClientIP false h₁ raw = getClientIP false h₂ raw ∧
    getClientIP false h₁ raw = normalizeAddr raw :=
  ⟨rfl, rfl⟩

/-- C4, counterexample: a present but EMPTY x-forwarded-for header is falsy
in JavaScript, so the code falls through to x-real-ip, while the claim as
stated returns the first PRESENT header value, here the empty string. -/
theorem claim_C4_counterexample :
    getClientIP true ⟨some "", some "5.6.7.8"⟩ "9.9.9.9" ≠
      (specFirstPresentHeader ⟨some "", some "5.6.7.8"⟩).getD
        (normalizeAddr "9.9.9.9") := by
  decide

/-- C4, amended: when trustProxy is true, getClientIP returns the first
present NON-EMPTY header value among x-forwarded-for then x-real-ip; when
neither header is present with a non-empty value it returns the normalized
raw address; the header value 1.2.3.4 is returned verbatim, and the raw
address ::ffff:10.0.0.5 normalizes to 10.0.0.5. -/
theorem claim_C4_trustProxy_true (raw : String) (h : Headers) :
    (∀ v, h.xForwardedFor = some v → v ≠ "" → getClientIP true h raw = v) ∧
    ((h.xForwardedFor = none ∨ h.xForwardedFor = some "") →
      ∀ v, h.xRealIp = some v → v ≠ "" → getClientIP true h raw = v) ∧
    ((h.xForwardedFor = none ∨ h.xForwardedFor = some "") →
      (h.xRealIp = none ∨ h.xRealIp = some "") →
      getClientIP true h raw = normalizeAddr raw) ∧
    normalizeAddr "::ffff:10.0.0.5" = "10.0.0.5" ∧
    getClientIP true ⟨some "1.2.3.4", none⟩ raw = "1.2.3.4" := by
  refine ⟨?_, ?_, ?_, by decide, by simp [getClientIP, jsOrStr]⟩
  · intro v hv hne
    simp [getClientIP, jsOrStr, hv, hne]
  · intro hff v hv hne
    rcases hff with hff | hff <;> simp [getClientIP, jsOrStr, hff, hv, hne]
  · intro hff hri
    rcases hff with hff | hff <;> rcases hri with hri | hri <;>
      simp [getClientIP, jsOrStr, hff, hri]

/-- C4, witness of the amended theorem at concrete inputs. -/
theorem claim_C4_witness :
    getClientIP true ⟨some "7.7.7.7", some "8.8.8.8"⟩ "raw" = "7.7.7.7" ∧
    getClientIP true ⟨some "", some "8.8.8.8"⟩ "raw" = "8.8.8.8" ∧
    getClientIP true ⟨none, none⟩ "::ffff:10.0.0.5" = "10.0.0.5" := by
  refine ⟨(claim_C4_trustProxy_true "raw" _).1 _ rfl (by decide),
    (claim_C4_trustProxy_true "raw" _).2.1 (Or.inr rfl) _ rfl (by decide), ?_⟩
  have h := (claim_C4_trustProxy_true "::ffff:10.0.0.5" ⟨none, none⟩).2.2.1
    (Or.inl rfl) (Or.inl rfl)
  have h₂ := (claim_C4_trustProxy_true "::ffff:10.0.0.5" ⟨none, none⟩).2.2.2.1
  rw [h]
  exact h₂

/-- C10: normalization keeps only the substring after the last colon of the
whole string; a colon-free address is unchanged; the bare IPv6 address
2001:db8::1 resolves to 1. -/
theorem claim_C10_normalization (a b s : String) :
    (':' ∉ b.data → normalizeAddr (a ++ ":" ++ b) = b) ∧
    (':' ∉ s.data → normalizeAddr s = s) ∧
    normalizeAddr "2001:db8::1" = "1" := by
  refine ⟨?_, ?_, by decide⟩
  · intro hb
    have hdata : (a ++ ":" ++ b).data = a.data ++ ':' :: b.data := by
      simp [String.data_append]
    simp [normalizeAddr, hdata, afterLastColon_append _ _ hb]
  · intro hs
    simp [normalizeAddr, afterLastColon_no_colon _ hs]

/-- C10, witness at concrete inputs. -/
theorem claim_C10_witness :
    normalizeAddr ("2001:db8:" ++ ":" ++ "1") = "1" ∧
    normalizeAddr "10.0.0.5" = "10.0.0.5" :=
  ⟨(claim_C10_normalization "2001:db8:" "1" "x").1 (by decide),
   (claim_C10_normalization "a" "b" "10.0.0.5").2.1 (by decide)⟩

/-- Bytewise lexicographic less-or-equal on character lists: the binary
collation that orders the text name column of the SQL ORDER BY clause. -/
def lexLE : List Char → List Char → Bool
  | [], _ => true
  | _ :: _, [] => false
  | a :: as, b :: bs =>
    if a.toNat < b.toNat then true
    else if b.toNat < a.toNat then false
    else lexLE as bs

theorem lexLE_cons (a b : Char) (as bs : List Char) :
    lexLE (a :: as) (b :: bs) = true ↔
      a.toNat < b.toNat ∨ (a.toNat = b.toNat ∧ lexLE as bs = true) := by
  by_cases h₁ : a.toNat < b.toNat
  · simp [lexLE, h₁]
  · by_cases h₂ : b.toNat < a.toNat
    · simp only [lexLE, if_neg h₁, if_pos h₂]
      constructor
      · intro h
        exact absurd h (by simp)
      · rintro (h | ⟨h, hr⟩) <;> omega
    · have he : a.toNat = b.toNat := by omega
      simp [lexLE, h₁, h₂, he]

theorem lexLE_total : ∀ x y : List Char, lexLE x y = true ∨ lexLE y x = true
  | [], _ => Or.inl rfl
  | _ :: _, [] => Or.inr rfl
  | a :: as, b :: bs => by
    rw [lexLE_cons, lexLE_cons]
    rcases Nat.lt_trichotomy a.toNat b.toNat with h | h | h
    · exact Or.inl (Or.inl h)
    · rcases lexLE_total as bs with hl | hl
      · exact Or.inl (Or.inr ⟨h, hl⟩)
      · exact Or.inr (Or.inr ⟨h.symm, hl⟩)
    · exact Or.inr (Or.inl h)

theorem lexLE_trans : ∀ x y z : List Char,
    lexLE x y = true → lexLE y z = true → lexLE x z = true
  | [], _, _, _, _ => rfl
  | _ :: _, [], _, hxy, _ => by simp [lexLE] at hxy
  | _ :: _, _ :: _, [], _, hyz => by simp [lexLE] at hyz
  | a :: as, b :: bs, c :: cs, hxy, hyz => by
    rw [lexLE_cons] at hxy hyz ⊢
    rcases hxy with h | ⟨he, hr⟩ <;> rcases hyz with h₂ | ⟨he₂, hr₂⟩
    · exact Or.inl (by omega)
    · exact Or.inl (by omega)
    · exact Or.inl (by omega)
    · exact Or.inr ⟨by omega, lexLE_trans as bs cs hr hr₂⟩

/-- A row of the monitor table: the columns the fragment touches. -/
structure Monitor where
  id : Nat
  user_id : Nat
  name : String
  weight : Int
deriving DecidableEq

/-- The ORDER BY key of the query on line 96: weight DESC, then name
ascending in the bytewise collation. -/
def monitorLE (a b : Monitor) : Bool :=
  decide (b.weight < a.weight) ||
    (decide (a.weight = b.weight) && lexLE a.name.data b.name.data)

def monitorRel (a b : Monitor) : Prop := monitorLE a b = true

instance : DecidableRel monitorRel := fun a b =>
  inferInstanceAs (Decidable (monitorLE a b = true))

theorem monitorRel_iff (a b : Monitor) : monitorRel a b ↔
    b.weight < a.weight ∨
      (a.weight = b.weight ∧ lexLE a.name.data b.name.data = true) := by
  simp [monitorRel, monitorLE, Bool.or_eq_true, Bool.and_eq_true,
    decide_eq_true_iff]

instance : IsTotal Monitor monitorRel :=
  ⟨fun a b => by
    rw [monitorRel_iff, monitorRel_iff]
    rcases lt_trichotomy a.weight b.weight with h | h | h
    · exact Or.inr (Or.inl h)
    · rcases lexLE_total a.name.data b.name.data with hl | hl
      · exact Or.inl (Or.inr ⟨h, hl⟩)
      · exact Or.inr (Or.inr ⟨h.symm, hl⟩)
    · exact Or.inl (Or.inl h)⟩

instance : IsTrans Monitor monitorRel :=
  ⟨fun a b c hab hbc => by
    rw [monitorRel_iff] at hab hbc ⊢
    rcases hab with h | ⟨he, hl⟩ <;> rcases hbc with h₂ | ⟨he₂, hl₂⟩
    · exact Or.inl (by omega)
    · exact Or.inl (by omega)
    · exact Or.inl (by omega)
    · exact Or.inr ⟨by omega, lexLE_trans _ _ _ hl hl₂⟩⟩

/-- Lines 96-98: R.find on table monitor with WHERE user_id = ? and
ORDER BY weight DESC, name. Modelled as the SQL contract: keep the rows
owned by the user and sort them by the ORDER BY key. -/
def findMonitors (db : List Monitor) (userID : Nat) : List Monitor :=
  List.insertionSort monitorRel (db.filter (fun m => m.user_id == userID))

/-- monitor.toJSON of the excluded monitor model: serializes a record to
its transport form; modelled as the record itself, since only the keying
by id matters here. -/
def monitorToJSON (m : Monitor) : Monitor := m

/-- Lines 93-105, getMonitorJSONList: the result object keyed by monitor
id, populated in production order. -/
def getMonitorJSONList (db : List Monitor) (userID : Nat) : List (Nat × Monitor) :=
  (findMonitors db userID).map (fun m => (m.id, monitorToJSON m))

/-- C1, counterexample: on the concrete table of the claim the production
order of ids is not 3, 1, 2: among the weight-5 ties, name a (id 2) sorts
before name b (id 1), so the order is 3, 2, 1. -/
theorem claim_C1_counterexample :
    (getMonitorJSONList
        [⟨1, 7, "b", 5⟩, ⟨2, 7, "a", 5⟩, ⟨3, 7, "c", 9⟩] 7).map Prod.fst
      ≠ [3, 1, 2] := by
  decide

/-- C1, amended: the key set of getMonitorJSONList is exactly the ids of
the monitors owned by the user; the underlying production list is ordered
by weight descending, ties broken by name ascending (bytewise); and on the
concrete table of the claim the production order of ids is 3, 2, 1. -/
theorem claim_C1_getMonitorJSONList_keys_and_order (db : List Monitor) (u : Nat) :
    (∀ i : Nat, i ∈ (getMonitorJSONList db u).map Prod.fst ↔
      ∃ m, m ∈ db ∧ m.user_id = u ∧ m.id = i) ∧
    List.Pairwise (fun a b : Monitor =>
      b.weight < a.weight ∨
        (a.weight = b.weight ∧ lexLE a.name.data b.name.data = true))
      (findMonitors db u) ∧
    (getMonitorJSONList
        [⟨1, 7, "b", 5⟩, ⟨2, 7, "a", 5⟩, ⟨3, 7, "c", 9⟩] 7).map Prod.fst
      = [3, 2, 1] := by
  refine ⟨?_, ?_, by decide⟩
  · intro i
    simp only [getMonitorJSONList, findMonitors, monitorToJSON, List.map_map,
      Function.comp, List.mem_map]
    constructor
    · rintro ⟨m, hm, rfl⟩
      have hmem := (List.perm_insertionSort monitorRel
        (db.filter (fun m => m.user_id == u))).mem_iff.mp hm
      rw [List.mem_filter] at hmem
      exact ⟨m, hmem.1, by simpa using hmem.2, rfl⟩
    · rintro ⟨m, hmdb, huser, rfl⟩
      refine ⟨m, ?_, rfl⟩
      refine (List.perm_insertionSort monitorRel
        (db.filter (fun m => m.user_id == u))).mem_iff.mpr ?_
      rw [List.mem_filter]
      exact ⟨hmdb, by simpa using huser⟩
  · have hs := List.sorted_insertionSort monitorRel
      (db.filter (fun m => m.user_id == u))
    exact hs.imp (fun h => (monitorRel_iff _ _).mp h)

/-- C1, witness at the concrete table of the claim. -/
theorem claim_C1_witness :
    (getMonitorJSONList
        [⟨1, 7, "b", 5⟩, ⟨2, 7, "a", 5⟩, ⟨3, 7, "c", 9⟩] 7).map Prod.fst
      = [3, 2, 1] :=
  (claim_C1_getMonitorJSONList_keys_and_order [] 0).2.2

/-- A live socket connection with its authenticated user identity. -/
structure Session where
  sid : Nat
  userID : Nat
deriving DecidableEq

/-- One io.to(room).emit(event, payload) call. -/
structure Emission where
  room : Nat
  event : String
  payload : List (Nat × Monitor)
deriving DecidableEq

/-- Lines 80-84, sendMonitorList: await the directory query for
socket.userID, emit the resolved list to the room named by socket.userID,
return the list. The await sequencing is the data dependence: the emitted
payload is the fully resolved query result. Returns the returned list and
the emissions performed, in order. -/
def sendMonitorList (db : List Monitor) (socket : Session) :
    List (Nat × Monitor) × List Emission :=
  let list := getMonitorJSONList db socket.userID
  (list, [⟨socket.userID, "monitorList", list⟩])

/-- The socket.io room model of the spec: membership of room r is exactly
the connected sessions whose user identity is r; io.to(r).emit delivers to
every member of the room. -/
def deliverTo (connected : List Session) (e : Emission) : List Session :=
  connected.filter (fun s => s.userID == e.room)

/-- C2: sendMonitorList emits exactly one event, to the room keyed by the
session's user identity, whose payload is the fully resolved result of
getMonitorJSONList for that user; it returns the very same list; and the
emission is delivered to every connected session of that user (the whole
room), and to no session of another user. -/
theorem claim_C2_sendMonitorList (db : List Monitor) (socket : Session)
    (connected : List Session) :
    (sendMonitorList db socket).2 =
      [⟨socket.userID, "monitorList", getMonitorJSONList db socket.userID⟩] ∧
    (sendMonitorList db socket).1 = getMonitorJSONList db socket.userID ∧
    (∀ e ∈ (sendMonitorList db socket).2,
      e.payload = getMonitorJSONList db socket.userID ∧
      ∀ s ∈ connected, (s ∈ deliverTo connected e ↔ s.userID = socket.userID)) := by
  refine ⟨rfl, rfl, ?_⟩
  intro e he
  simp only [sendMonitorList, List.mem_singleton] at he
  subst he
  refine ⟨rfl, ?_⟩
  intro s hs
  simp [deliverTo, List.mem_filter, hs]

/-- C2, witness: a second session of the same user receives the broadcast
triggered by the first. -/
theorem claim_C2_witness :
    Session.mk 1 7 ∈ deliverTo [⟨0, 7⟩, ⟨1, 7⟩, ⟨2, 8⟩]
      ⟨7, "monitorList", getMonitorJSONList [⟨1, 7, "b", 5⟩] 7⟩ :=
  (((claim_C2_sendMonitorList [⟨1, 7, "b", 5⟩] ⟨0, 7⟩
        [⟨0, 7⟩, ⟨1, 7⟩, ⟨2, 8⟩]).2.2
      ⟨7, "monitorList", getMonitorJSONList [⟨1, 7, "b", 5⟩] 7⟩
      (List.mem_singleton.mpr rfl)).2
    ⟨1, 7⟩ (by simp)).mpr rfl

/-- A thrown exception or a process.exit call escaping the constructor. -/
inductive Crash
  | exit (code : Nat)
  | thrown (msg : String)
deriving DecidableEq

/-- The listener built at lines 53-62: https.createServer with the key and
certificate file contents, or http.createServer. -/
inductive Listener
  | httpsServer (key cert : String)
  | httpServer
deriving DecidableEq

/-- The two command-line arguments the constructor reads: args ssl-key and
args ssl-cert; none is an argument that was not passed. -/
structure Args where
  sslKeyArg : Option String
  sslCertArg : Option String
deriving DecidableEq

/-- The environment variables the constructor reads: UPTIME_KUMA_SSL_KEY,
SSL_KEY, UPTIME_KUMA_SSL_CERT, SSL_CERT and NODE_ENV. -/
structure Env where
  uptimeKumaSslKey : Option String
  sslKeyVar : Option String
  uptimeKumaSslCert : Option String
  sslCertVar : Option String
  nodeEnvVar : Option String
deriving DecidableEq

/-- The readable files, by path. -/
structure FileSys where
  files : String → Option String

/-- fs.readFileSync: the file content, or a thrown error. -/
def readFileSync (fs : FileSys) (path : String) : Except Crash String :=
  match fs.files path with
  | some content => Except.ok content
  | none => Except.error (Crash.thrown ("ENOENT: " ++ path))

/-- Line 49: args ssl-key OR env UPTIME_KUMA_SSL_KEY OR env SSL_KEY OR
undefined, with JavaScript falsy-OR semantics. -/
def resolveSslKey (args : Args) (env : Env) : Option String :=
  jsOrStr args.sslKeyArg (jsOrStr env.uptimeKumaSslKey (jsOrStr env.sslKeyVar none))

/-- Line 50: the certificate, resolved by the same chain. -/
def resolveSslCert (args : Args) (env : Env) : Option String :=
  jsOrStr args.sslCertArg (jsOrStr env.uptimeKumaSslCert (jsOrStr env.sslCertVar none))

/-- Lines 53-62: if sslKey and sslCert are both truthy, build the HTTPS
listener from the contents of the two files, letting a readFileSync throw
escape; otherwise build the plain HTTP listener. -/
def buildListener (args : Args) (env : Env) (fs : FileSys) : Except Crash Listener :=
  match resolveSslKey args env, resolveSslCert args env with
  | some keyPath, some certPath =>
    match readFileSync fs keyPath with
    | Except.error e => Except.error e
    | Except.ok key =>
      match readFileSync fs certPath with
      | Except.error e => Except.error e
      | Except.ok cert => Except.ok (Listener.httpsServer key cert)
  | _, _ => Except.ok Listener.httpServer

/-- Lines 65-73: try to read dist/index.html into indexHTML; on failure,
outside development mode the process exits with code 1, and in development
mode the failure is tolerated, indexHTML keeping its initial empty value. -/
def loadIndexHTML (env : Env) (fs : FileSys) : Except Crash String :=
  match readFileSync fs "./dist/index.html" with
  | Except.ok content => Except.ok content
  | Except.error _ =>
    if env.nodeEnvVar ≠ some "development" then Except.error (Crash.exit 1)
    else Except.ok ""

/-- The fields of the constructed instance that the claims touch. -/
structure UptimeKumaServer where
  httpServer : Listener
  indexHTML : String
deriving DecidableEq

/-- Lines 47-78, the constructor body: resolve the SSL material and build
the listener, then load the shell document. -/
def serverConstructor (args : Args) (env : Env) (fs : FileSys) :
    Except Crash UptimeKumaServer :=
  match buildListener args env fs with
  | Except.error e => Except.error e
  | Except.ok listener =>
    match loadIndexHTML env fs with
    | Except.error e => Except.error e
    | Except.ok indexHTML => Except.ok ⟨listener, indexHTML⟩

/-- Lines 40-45, getInstance: the static instance field starts null; the
first call constructs and stores the instance, later calls return the
stored one untouched. The threaded state pairs the instance field with the
number of constructions performed so far. -/
def getInstance (env : Env) (fs : FileSys)
    (st : Option UptimeKumaServer × Nat) (args : Args) :
    Except Crash (UptimeKumaServer × (Option UptimeKumaServer × Nat)) :=
  match st.1 with
  | some inst => Except.ok (inst, st)
  | none =>
    match serverConstructor args env fs with
    | Except.ok inst => Except.ok (inst, (some inst, st.2 + 1))
    | Except.error e => Except.error e

/-- A sequence of getInstance calls, collecting the returned instances. -/
def runGetInstance (env : Env) (fs : FileSys)
    (st : Option UptimeKumaServer × Nat) :
    List Args → Except Crash (List UptimeKumaServer × (Option UptimeKumaServer × Nat))
  | [] => Except.ok ([], st)
  | args :: rest =>
    match getInstance env fs st args with
    | Except.ok (inst, st₂) =>
      match runGetInstance env fs st₂ rest with
      | Except.ok (insts, st₃) => Except.ok (inst :: insts, st₃)
      | Except.error e => Except.error e
    | Except.error e => Except.error e

/-- Once the instance field holds an instance, every further call returns
it and never constructs again. -/
theorem runGetInstance_constructed (env : Env) (fs : FileSys)
    (inst : UptimeKumaServer) (n : Nat) :
    ∀ calls : List Args,
      runGetInstance env fs (some inst, n) calls =
        Except.ok (List.replicate calls.length inst, (some inst, n))
  | [] => rfl
  | args :: rest => by
    simp [runGetInstance, getInstance,
      runGetInstance_constructed env fs inst n rest, List.replicate_succ]

/-- C5: starting from the null instance field, a first call that constructs
instance inst makes the whole call sequence return that very instance at
every call, with exactly one construction, the arguments of all later
calls being ignored (rest is arbitrary). -/
theorem claim_C5_getInstance_singleton (env : Env) (fs : FileSys)
    (args₀ : Args) (rest : List Args) (inst : UptimeKumaServer)
    (h : serverConstructor args₀ env fs = Except.ok inst) :
    runGetInstance env fs (none, 0) (args₀ :: rest) =
      Except.ok (List.replicate (rest.length + 1) inst, (some inst, 1)) := by
  simp [runGetInstance, getInstance, h,
    runGetInstance_constructed env fs inst 1 rest, List.replicate_succ]

/-- C5, witness: two calls with different arguments in a development
environment with no files return the identical instance and construct
once. -/
theorem claim_C5_witness :
    runGetInstance ⟨none, none, none, none, some "development"⟩ ⟨fun _ => none⟩
        (none, 0) [⟨none, none⟩, ⟨some "other-key", some "other-cert"⟩] =
      Except.ok ([⟨Listener.httpServer, ""⟩, ⟨Listener.httpServer, ""⟩],
        (some ⟨Listener.httpServer, ""⟩, 1)) :=
  claim_C5_getInstance_singleton ⟨none, none, none, none, some "development"⟩
    ⟨fun _ => none⟩ ⟨none, none⟩ [⟨some "other-key", some "other-cert"⟩]
    ⟨Listener.httpServer, ""⟩ rfl

/-- C8: when the shell document at the fixed path cannot be read and the
listener stage succeeds, the constructor exits the process with code 1
outside development mode, and in development mode it succeeds with the
cached markup left empty. -/
theorem claim_C8_missing_index (args : Args) (env : Env) (fs : FileSys)
    (l : Listener) (hmiss : fs.files "./dist/index.html" = none)
    (hl : buildListener args env fs = Except.ok l) :
    (env.nodeEnvVar ≠ some "development" →
      serverConstructor args env fs = Except.error (Crash.exit 1)) ∧
    (env.nodeEnvVar = some "development" →
      serverConstructor args env fs = Except.ok ⟨l, ""⟩) := by
  constructor <;> intro hdev <;>
    simp [serverConstructor, loadIndexHTML, readFileSync, hmiss, hl, hdev]

/-- C8, witness: with no readable files, a production-like environment
exits with code 1 and a development environment constructs with an empty
shell cache. -/
theorem claim_C8_witness :
    serverConstructor ⟨none, none⟩ ⟨none, none, none, none, none⟩ ⟨fun _ => none⟩
        = Except.error (Crash.exit 1) ∧
    serverConstructor ⟨none, none⟩ ⟨none, none, none, none, some "development"⟩
        ⟨fun _ => none⟩ = Except.ok ⟨Listener.httpServer, ""⟩ :=
  ⟨(claim_C8_missing_index ⟨none, none⟩ ⟨none, none, none, none, none⟩
      ⟨fun _ => none⟩ Listener.httpServer rfl rfl).1 (by decide),
   (claim_C8_missing_index ⟨none, none⟩ ⟨none, none, none, none, some "development"⟩
      ⟨fun _ => none⟩ Listener.httpServer rfl rfl).2 rfl⟩

/-- C9: when both the key and the certificate resolve and their files are
readable, the listener is the TLS one initialized with the file contents;
when either resolves to nothing, the listener is the plain one; and the
key resolution follows the precedence explicit argument, then
UPTIME_KUMA_SSL_KEY, then SSL_KEY, then unset, for sources that are absent
or non-empty. -/
theorem claim_C9_listener_selection (args : Args) (env : Env) (fs : FileSys) :
    (∀ kp cp kc cc,
      resolveSslKey args env = some kp → resolveSslCert args env = some cp →
      fs.files kp = some kc → fs.files cp = some cc →
      buildListener args env fs = Except.ok (Listener.httpsServer kc cc)) ∧
    ((resolveSslKey args env = none ∨ resolveSslCert args env = none) →
      buildListener args env fs = Except.ok Listener.httpServer) ∧
    (args.sslKeyArg ≠ some "" → env.uptimeKumaSslKey ≠ some "" →
      env.sslKeyVar ≠ some "" →
      resolveSslKey args env =
        (args.sslKeyArg <|> env.uptimeKumaSslKey <|> env.sslKeyVar)) := by
  refine ⟨?_, ?_, ?_⟩
  · intro kp cp kc cc hk hc hfk hfc
    simp [buildListener, hk, hc, readFileSync, hfk, hfc]
  · intro h
    unfold buildListener
    rcases h with h | h
    · rw [h]
    · rw [h]
      cases resolveSslKey args env <;> rfl
  · intro h₁ h₂ h₃
    unfold resolveSslKey jsOrStr
    cases hk : args.sslKeyArg with
    | some v =>
      have hv : ¬ v = "" := fun he => h₁ (hk.trans (by rw [he]))
      simp [hv]
    | none =>
      cases hu : env.uptimeKumaSslKey with
      | some v =>
        have hv : ¬ v = "" := fun he => h₂ (hu.trans (by rw [he]))
        simp [hv]
      | none =>
        cases hs : env.sslKeyVar with
        | some v =>
          have hv : ¬ v = "" := fun he => h₃ (hs.trans (by rw [he]))
          simp [hv]
        | none => simp

/-- C9, witness: an explicit key argument and a certificate from the
environment yield the TLS listener loaded with the two file contents. -/
theorem claim_C9_witness :
    buildListener ⟨some "key.pem", none⟩
        ⟨none, none, some "cert.pem", none, none⟩
        ⟨fun p => if p = "key.pem" then some "KEYMATERIAL"
          else if p = "cert.pem" then some "CERTMATERIAL" else none⟩ =
      Except.ok (Listener.httpsServer "KEYMATERIAL" "CERTMATERIAL") :=
  (claim_C9_listener_selection ⟨some "key.pem", none⟩
      ⟨none, none, some "cert.pem", none, none⟩
      ⟨fun p => if p = "key.pem" then some "KEYMATERIAL"
        else if p = "cert.pem" then some "CERTMATERIAL" else none⟩).1
    "key.pem" "cert.pem" "KEYMATERIAL" "CERTMATERIAL" rfl rfl (by decide) (by decide)

/-- One observable effect of the static errorLog. -/
inductive LogEffect
  | openAppend (path : String)
  | writeLine (path line : String)
  | logInfo (moduleName msg : String)
  | consoleError (msg : String)
  | endStream (path : String)
deriving DecidableEq

/-- util.format of the error argument; errors are modelled by their
formatted text. -/
def utilFormat (error : String) : String := error

/-- Lines 112-131, the static errorLog: fs.createWriteStream on
dataDir/error.log with the append flag returns a stream object without
throwing; open and write failures are delivered asynchronously to the
error listener registered on line 117, which logs Cannot write to
error.log through log.info. The stream object is truthy, so one line,
the bracketed R.isoDateTime() value followed by util.format of the error,
is written, the error is echoed through console.error when outputToConsole
is set, and the stream is ended. sinkWritable says whether the sink under
dataDir accepts the open and write. The result is the effect trace of the
call; no step throws, so the Except layer always returns ok. -/
def errorLog (dataDir : String) (sinkWritable : Bool) (isoDateTime : String)
    (error : String) (outputToConsole : Bool) : Except String (List LogEffect) :=
  let path := dataDir ++ "/error.log"
  let writeEffects :=
    if sinkWritable then
      [LogEffect.writeLine path ("[" ++ isoDateTime ++ "] " ++ utilFormat error ++ "\n")]
    else
      [LogEffect.logInfo "" "Cannot write to error.log"]
  let echoEffects := if outputToConsole then [LogEffect.consoleError error] else []
  Except.ok (LogEffect.openAppend path :: writeEffects ++ echoEffects
    ++ [LogEffect.endStream path])

/-- File-and-handle semantics of the journal effects: the state is the
sequence of lines of dataDir/error.log and the number of open handles on
it; openAppend opens one more handle without truncating, writeLine
appends, endStream closes. -/
def applyLogEffect (st : List String × Nat) : LogEffect → List String × Nat
  | LogEffect.openAppend _ => (st.1, st.2 + 1)
  | LogEffect.writeLine _ line => (st.1 ++ [line], st.2)
  | LogEffect.logInfo _ _ => st
  | LogEffect.consoleError _ => st
  | LogEffect.endStream _ => (st.1, st.2 - 1)

def applyLogEffects (st : List String × Nat) (effects : List LogEffect) :
    List String × Nat :=
  effects.foldl applyLogEffect st

/-- C6: whatever the sink state, errorLog returns normally, and when the
echo flag is set the error reaches the console even when the file sink is
broken. -/
theorem claim_C6_errorLog_never_raises (dataDir isoDateTime error : String)
    (sinkWritable outputToConsole : Bool) :
    ∃ tr, errorLog dataDir sinkWritable isoDateTime error outputToConsole
        = Except.ok tr ∧
      (outputToConsole = true → LogEffect.consoleError error ∈ tr) := by
  cases sinkWritable <;> cases outputToConsole <;>
    exact ⟨_, rfl, fun h => by first | exact Bool.noConfusion h | simp [errorLog]⟩

/-- C6, witness: a broken sink with the echo flag set still returns ok and
still echoes the error to the console. -/
theorem claim_C6_witness :
    ∃ tr, errorLog "/data" false "2024-01-01T00:00:00.000Z" "boom" true
        = Except.ok tr ∧
      (true = true → LogEffect.consoleError "boom" ∈ tr) :=
  claim_C6_errorLog_never_raises "/data" "2024-01-01T00:00:00.000Z" "boom"
    false true

/-- C7: on a writable sink, each call opens dataDir/error.log in append
mode as its first effect, appends exactly one line of the form bracketed
timestamp followed by the formatted error, ends the stream as its last
effect, and leaves no handle open after the call. -/
theorem claim_C7_errorLog_appends_one_line (dataDir isoDateTime error : String)
    (outputToConsole : Bool) (prior : List String) :
    ∃ tr, errorLog dataDir true isoDateTime error outputToConsole
        = Except.ok tr ∧
      applyLogEffects (prior, 0) tr =
        (prior ++ ["[" ++ isoDateTime ++ "] " ++ utilFormat error ++ "\n"], 0) ∧
      tr.head? = some (LogEffect.openAppend (dataDir ++ "/error.log")) ∧
      tr.getLast? = some (LogEffect.endStream (dataDir ++ "/error.log")) ∧
      tr.filter (fun e => match e with
          | LogEffect.writeLine _ _ => true
          | _ => false) =
        [LogEffect.writeLine (dataDir ++ "/error.log")
          ("[" ++ isoDateTime ++ "] " ++ utilFormat error ++ "\n")] := by
  cases outputToConsole <;>
    exact ⟨_, rfl, rfl, rfl, rfl, rfl⟩

end UptimeKuma
